import Mathlib

/-!
# Verification of the bwilcd XML-parsing and data-normalization core

This file gives a shallow embedding, in Lean 4, of the XML response parsing
layer of the `bwilcd` ILCD/SODA4LCA client (files `bwilcd/xml_parser.py`,
`bwilcd/models.py` and the XML-processing part of `bwilcd/client.py`), and
proves or refutes the frozen specification claims about it.

Modelling conventions:
* XML documents are modelled as element trees (`XElem`) the way Python's
  `xml.etree.ElementTree` presents them after `ET.fromstring`: tags and
  attribute keys are expanded names (`QName`), either plain (`local`) or
  namespace-qualified (`{uri}local`); element text is `Option String`.
  A raw byte input is represented by the outcome of `ET.fromstring` on it:
  `Except PyErr XElem` (a malformed byte stream is `.error .parseError`).
* The subset of the ElementPath language actually used by the source is
  embedded (`XPath`): an optional leading `.//` (descendant search), `/`
  separated child steps, prefix- or brace-qualified or bare tags, and a
  final `[@attr="value"]` predicate.  Python ≥ 3.8 semantics: a bare tag in
  a path picks up the default (`""`) binding of the namespace map, a bare
  attribute name never does.
* Python runtime values that can be a string or `None` are `Option String`;
  dict entries that may be missing are a further `Option` layer.
  Python `float` values are modelled by their source literal (`PyFloat`),
  since no claim involves floating-point arithmetic; `int(...)`/`float(...)`
  conversion failures are modelled faithfully as `PyErr` results.
* Exceptions are modelled with `Except PyErr`; code paths that cannot raise
  are plain functions.
-/

set_option linter.unusedVariables false

namespace Bwilcd

/-- An ElementTree expanded name: either a plain local name, or a
namespace-qualified name that ElementTree would print as `{uri}local`. -/
inductive QName where
  | plain (s : String)
  | qualified (uri : String) (nm : String)
deriving DecidableEq

mutual
/-- An XML element as `xml.etree.ElementTree` presents it: expanded tag,
attribute dictionary (expanded keys), text, and the list of child elements
(as a mutually-inductive forest so that recursion stays structural). -/
inductive XElem where
  | mk (tag : QName) (attrs : List (QName × String)) (text : Option String)
       (children : XForest)
deriving DecidableEq
/-- A list of XML elements (children of an element). -/
inductive XForest where
  | nil
  | cons (head : XElem) (tail : XForest)
deriving DecidableEq
end

namespace XForest

/-- View a forest as a `List` of elements. -/
def toList : XForest → List XElem
  | .nil => []
  | .cons c rest => c :: rest.toList

/-- Build a forest from a `List` of elements. -/
def ofList : List XElem → XForest
  | [] => .nil
  | c :: rest => .cons c (ofList rest)

end XForest

namespace XElem

/-- Convenience constructor taking the children as a `List`. -/
def node (tag : QName) (attrs : List (QName × String)) (text : Option String)
    (children : List XElem) : XElem :=
  .mk tag attrs text (XForest.ofList children)

def tag : XElem → QName
  | .mk t _ _ _ => t

def attrs : XElem → List (QName × String)
  | .mk _ a _ _ => a

def text : XElem → Option String
  | .mk _ _ s _ => s

def children : XElem → List XElem
  | .mk _ _ _ cs => cs.toList

/-- `element.get(key)`: attribute lookup, `None` when the key is absent. -/
def get (e : XElem) (key : QName) : Option String :=
  (e.attrs.find? (fun p => p.1 = key)).map Prod.snd

end XElem

mutual
/-- The proper descendants of an element, in document (preorder) order:
what ElementTree's `.//` descendant search iterates over. -/
def XElem.descendants : XElem → List XElem
  | .mk _ _ _ cs => XForest.elems cs
/-- All elements of a forest together with their descendants, preorder. -/
def XForest.elems : XForest → List XElem
  | .nil => []
  | .cons c rest => c :: (c.descendants ++ rest.elems)
end

/-- A namespace map as passed to `find`/`findall`: prefix → URI.
The empty list models both Python's `{}` and an omitted argument. -/
abbrev NsMap := List (String × String)

/-- A tag occurrence inside an ElementPath expression: bare (`uuid`),
prefixed (`ns:uuid`), or brace-qualified (`{uri}uuid`). -/
inductive STag where
  | bare (s : String)
  | pfx (p s : String)
  | lit (uri s : String)
deriving DecidableEq

/-- One `/`-separated step of an ElementPath expression: a tag and an
optional `[@attr="value"]` predicate. -/
structure Step where
  tag : STag
  attr : Option (STag × String) := none
deriving DecidableEq

/-- An ElementPath expression of the shape used in the source: an optional
leading `.//`, then child steps. -/
structure XPath where
  deep : Bool
  steps : List Step
deriving DecidableEq

/-- Resolve an element-tag occurrence against a namespace map, as
ElementTree does for Python ≥ 3.8: a bare tag picks up the default (`""`)
binding when present.  (ElementTree raises `SyntaxError` for an unbound
prefix; every prefix used by this code is bound in the map it is used
with, so that case is unreachable and modelled as a no-match.) -/
def resolveTag (t : STag) (ns : NsMap) : Option QName :=
  match t with
  | .lit uri s => some (.qualified uri s)
  | .pfx p s => (ns.find? (fun q => q.1 = p)).map (fun q => .qualified q.2 s)
  | .bare s =>
      match ns.find? (fun q => q.1 = "") with
      | some q => some (.qualified q.2 s)
      | none => some (.plain s)

/-- Resolve an attribute-name occurrence in a `[@attr="v"]` predicate:
unlike element tags, a bare attribute name never takes the default
namespace. -/
def resolveAttr (t : STag) (ns : NsMap) : Option QName :=
  match t with
  | .lit uri s => some (.qualified uri s)
  | .pfx p s => (ns.find? (fun q => q.1 = p)).map (fun q => .qualified q.2 s)
  | .bare s => some (.plain s)

/-- Does element `e` match one path step under namespace map `ns`? -/
def matchesStep (e : XElem) (st : Step) (ns : NsMap) : Bool :=
  (resolveTag st.tag ns == some e.tag) &&
  (match st.attr with
   | none => true
   | some (a, v) =>
       match resolveAttr a ns with
       | some q => e.get q == some v
       | none => false)

/-- Apply the child steps after the first one: each step keeps the children
of the current matches that match the step, in order. -/
def evalSteps (cur : List XElem) (steps : List Step) (ns : NsMap) : List XElem :=
  match steps with
  | [] => cur
  | st :: rest =>
      evalSteps ((cur.map (fun m => m.children.filter (fun c => matchesStep c st ns))).flatten)
        rest ns

/-- `element.findall(path, ns)`: all matches in document order.  The first
step searches the proper descendants when the path starts with `.//`, and
the direct children otherwise; later steps refine by children. -/
def XElem.findall (e : XElem) (p : XPath) (ns : NsMap) : List XElem :=
  match p.steps with
  | [] => []
  | st :: rest =>
      let base := if p.deep then e.descendants else e.children
      evalSteps (base.filter (fun c => matchesStep c st ns)) rest ns

/-- `element.find(path, ns)`: the first match, or `None`. -/
def XElem.find (e : XElem) (p : XPath) (ns : NsMap) : Option XElem :=
  (e.findall p ns).head?

/-! ## Python value helpers -/

/-- The Python exceptions that the embedded code can raise. -/
inductive PyErr where
  | parseError
  | typeError
  | valueError
  | attributeError
deriving DecidableEq

/-- Equality of modelled call outcomes is decidable (used to evaluate the
embedded functions on concrete documents). -/
instance {e a : Type} [DecidableEq e] [DecidableEq a] : DecidableEq (Except e a) :=
  fun x y =>
    match x, y with
    | .error u, .error v => decidable_of_iff (u = v) (by simp)
    | .ok u, .ok v => decidable_of_iff (u = v) (by simp)
    | .error _, .ok _ => .isFalse (by simp)
    | .ok _, .error _ => .isFalse (by simp)

/-- Python truthiness of a string-or-`None` value: `None` and `""` are
falsy, every other string is truthy. -/
def truthyStr : Option String → Bool
  | some s => !(s == "")
  | none => false

/-- Python truthiness of a `dict.get(key)` result where the stored value is
itself a string-or-`None`. -/
def dictTruthy : Option (Option String) → Bool
  | some v => truthyStr v
  | none => false

/-- Python `x or dflt` for a string-or-`None` value `x`. -/
def pyOrStr (x : Option String) (dflt : String) : String :=
  match x with
  | some s => if s == "" then dflt else s
  | none => dflt

/-- ASCII whitespace, as stripped by Python's `str.strip()` (which also
strips some further Unicode space characters; those do not occur in the
inputs of this development). -/
def isPySpace (c : Char) : Bool :=
  c = ' ' || c = '\t' || c = '\n' || c = '\r' || c = '\x0b' || c = '\x0c'

/-- Strip leading and trailing whitespace from a character list. -/
def stripChars (l : List Char) : List Char :=
  ((l.dropWhile isPySpace).reverse.dropWhile isPySpace).reverse

/-- Python `s.strip()`. -/
def pyStrip (s : String) : String :=
  ⟨stripChars s.data⟩

/-- Decimal digit run → value. -/
def digitsToNat (l : List Char) : Nat :=
  l.foldl (fun n c => n * 10 + (c.toNat - '0'.toNat)) 0

/-- Is this a non-empty run of decimal digits? -/
def isDigits (l : List Char) : Bool :=
  !l.isEmpty && l.all Char.isDigit

/-- Python `int(s)` on a string: surrounding whitespace, an optional sign,
then decimal digits; anything else raises `ValueError`. -/
def intLit? (s : String) : Option Int :=
  match stripChars s.data with
  | '-' :: rest => if isDigits rest then some (-(Int.ofNat (digitsToNat rest))) else none
  | '+' :: rest => if isDigits rest then some (Int.ofNat (digitsToNat rest)) else none
  | l => if isDigits l then some (Int.ofNat (digitsToNat l)) else none

/-- Python `int(x)` on a string-or-`None` argument: `int(None)` raises
`TypeError`, a non-numeric string raises `ValueError`. -/
def pyInt : Option String → Except PyErr Int
  | none => .error .typeError
  | some s =>
      match intLit? s with
      | some n => .ok n
      | none => .error .valueError

/-- A Python float, modelled by its source literal: no claim in this
development involves floating-point arithmetic, only the provenance of the
value, so two floats are equal in the model iff their literals are. -/
structure PyFloat where
  lit : String
deriving DecidableEq

/-- Exponent part of a float literal: optional sign then digits. -/
def signedDigits (l : List Char) : Bool :=
  match l with
  | '+' :: r => isDigits r
  | '-' :: r => isDigits r
  | r => isDigits r

/-- Split off a leading run of digits. -/
def digitSpan : List Char → List Char × List Char
  | [] => ([], [])
  | c :: rest =>
      if c.isDigit then
        let (ds, r) := digitSpan rest
        (c :: ds, r)
      else ([], c :: rest)

/-- Body of a decimal float literal after the optional sign: digits with an
optional fraction part, or a fraction alone, then an optional exponent.
(Python's `float` also accepts `inf`/`nan` spellings; they do not occur in
ILCD numeric fields and are not modelled.) -/
def floatTail (l : List Char) : Bool :=
  let (ds, rest) := digitSpan l
  match rest with
  | '.' :: r =>
      let (fs, r') := digitSpan r
      (!ds.isEmpty || !fs.isEmpty) &&
        (match r' with
         | [] => true
         | 'e' :: er => signedDigits er
         | 'E' :: er => signedDigits er
         | _ => false)
  | 'e' :: er => !ds.isEmpty && signedDigits er
  | 'E' :: er => !ds.isEmpty && signedDigits er
  | [] => !ds.isEmpty
  | _ => false

/-- Is `s` a decimal float literal accepted by Python's `float(s)`? -/
def isFloatLit (s : String) : Bool :=
  match stripChars s.data with
  | '+' :: r => floatTail r
  | '-' :: r => floatTail r
  | l => floatTail l

/-- Python `float(x)` on a string-or-`None` argument: `float(None)` raises
`TypeError`, a non-numeric string raises `ValueError`. -/
def pyFloat : Option String → Except PyErr PyFloat
  | none => .error .typeError
  | some s => if isFloatLit s then .ok ⟨s⟩ else .error .valueError

/-! ## Data model

`bwilcd/models.py` declares the `Exchange` dataclass; the stock and dataset
records are plain Python dicts built by the parser, modelled as structures
whose fields record both key presence and the (possibly `None`) value. -/

/-- The `Exchange` dataclass of `bwilcd/models.py`.  The `str`-annotated
fields actually receive raw element text (`Option String`) at runtime, so
they are modelled as `Option String`; the dataclass defaults `""`/`False`
become `some ""`/`false`.  The Python field `type` is `type_` here (`type`
is a Lean keyword). -/
structure Exchange where
  flow_name : Option String
  direction : Option String
  amount : PyFloat
  uuid : Option String
  type_ : Option String := some ""
  category : Option String := some ""
  unit : Option String := some ""
  is_reference_flow : Bool := false
deriving DecidableEq

/-- The stock dict built by `ILCDXMLParser._try_parse_stocks`: each key is
set only when the corresponding element was found (outer `Option`), and
then holds that element's text, which may itself be `None` (inner
`Option`). -/
structure StockData where
  uuid : Option (Option String) := none
  name : Option (Option String) := none
  description : Option (Option String) := none
deriving DecidableEq

/-- The dataset-summary dict built by `_parse_process_element` /
`SodaClient.search_datasets`: `uuid`/`name` keys are set only from elements
with truthy text, so a present key always holds a non-empty string. -/
structure DatasetData where
  dataset_type : String := "Process"
  uuid : Option String := none
  name : Option String := none
deriving DecidableEq

/-- The dataset dict returned by `ILCDXMLParser.parse_dataset`. -/
structure DatasetDetail where
  name : Option String
  uuid : Option String
  description : Option String
  exchanges : List Exchange
  reference_year : Option String
  geography : Option String
  technology : Option String
  functional_unit : Option String
  has_reference_flow : Bool
deriving DecidableEq

/-! ## Namespace URIs (the constants appearing in the source) -/

def sapiURI : String := "http://www.ilcd-network.org/ILCD/ServiceAPI"
def sapiSlashURI : String := "http://www.ilcd-network.org/ILCD/ServiceAPI/"
def sapiProcessURI : String := "http://www.ilcd-network.org/ILCD/ServiceAPI/Process"
def sapiFlowURI : String := "http://www.ilcd-network.org/ILCD/ServiceAPI/Flow"
def ilcdProcessURI : String := "http://lca.jrc.it/ILCD/Process"
def ilcdCommonURI : String := "http://lca.jrc.it/ILCD/Common"
def xmlNsURI : String := "http://www.w3.org/XML/1998/namespace"

/-! ## `ILCDXMLParser` (bwilcd/xml_parser.py)

Each `parse_*` entry point takes the outcome of `ET.fromstring` on the raw
bytes (`Except PyErr XElem`); none of them guards that call with
`try`/`except`, so a parse error propagates unchanged. -/

namespace ILCDXMLParser

/-- The namespace bindings tried by `parse_stocks`, in priority order
(xml_parser.py lines 13-17). -/
def stock_namespaces : List NsMap :=
  [[("ns", sapiURI)], [("ns", sapiSlashURI)], []]

/-- `root.findall(".//ns:dataStock", ns) if ns else root.findall(".//dataStock")`
(xml_parser.py lines 106-110; an empty map is falsy). -/
def stockElements (root : XElem) (ns : NsMap) : List XElem :=
  if ns.isEmpty then root.findall ⟨true, [⟨.bare "dataStock", none⟩]⟩ []
  else root.findall ⟨true, [⟨.pfx "ns" "dataStock", none⟩]⟩ ns

/-- The stock dict built for one `dataStock` element (xml_parser.py lines
112-127): each key is set only when its element is found; the description
value is `description.text or ""`. -/
def stockDict (stock : XElem) (ns : NsMap) : StockData :=
  let uuid := if ns.isEmpty then stock.find ⟨false, [⟨.bare "uuid", none⟩]⟩ []
              else stock.find ⟨false, [⟨.pfx "ns" "uuid", none⟩]⟩ ns
  let name := if ns.isEmpty then stock.find ⟨false, [⟨.bare "shortName", none⟩]⟩ []
              else stock.find ⟨false, [⟨.pfx "ns" "shortName", none⟩]⟩ ns
  let description := if ns.isEmpty then stock.find ⟨false, [⟨.bare "description", none⟩]⟩ []
              else stock.find ⟨false, [⟨.pfx "ns" "description", none⟩]⟩ ns
  { uuid := uuid.map XElem.text
  , name := name.map XElem.text
  , description := description.map (fun d => some (pyOrStr d.text "")) }

/-- `ILCDXMLParser._try_parse_stocks` (xml_parser.py lines 101-133): build
a dict per matched element and keep those whose `uuid` and `name` entries
are truthy.  (The `try`/`except` wrapper cannot fire in the model:
`findall`/`find`/`get` are total.) -/
def _try_parse_stocks (root : XElem) (ns : NsMap) : List StockData :=
  ((stockElements root ns).map (fun st => stockDict st ns)).filter
    (fun sd => dictTruthy sd.uuid && dictTruthy sd.name)

/-- The namespace loop of `parse_stocks` (xml_parser.py lines 19-23):
return the first attempt with a truthy (non-empty) result, else `[]`. -/
def tryStockNamespaces (root : XElem) : List NsMap → List StockData
  | [] => []
  | ns :: rest =>
      let stocks := _try_parse_stocks root ns
      if stocks.isEmpty then tryStockNamespaces root rest else stocks

/-- `ILCDXMLParser.parse_stocks` (xml_parser.py lines 9-23). -/
def parse_stocks (xml_content : Except PyErr XElem) : Except PyErr (List StockData) := do
  let root ← xml_content
  .ok (tryStockNamespaces root stock_namespaces)

/-- The top-level element paths tried by `parse_datasets_search`
(xml_parser.py lines 39-44); `findall` is called on them without a
namespace map.  (The `ET.register_namespace` calls affect serialization
only and are not modelled.) -/
def search_paths : List XPath :=
  [ ⟨true, [⟨.lit sapiURI "processDataSet", none⟩]⟩
  , ⟨true, [⟨.lit sapiProcessURI "process", none⟩]⟩
  , ⟨true, [⟨.bare "processDataSet", none⟩]⟩
  , ⟨true, [⟨.bare "process", none⟩]⟩ ]

/-- The per-element UUID fallback paths (xml_parser.py lines 140-144). -/
def uuid_paths : List XPath :=
  [ ⟨true, [⟨.lit sapiURI "uuid", none⟩]⟩
  , ⟨true, [⟨.lit sapiProcessURI "uuid", none⟩]⟩
  , ⟨true, [⟨.bare "uuid", none⟩]⟩ ]

/-- The per-element name fallback paths (xml_parser.py lines 145-151). -/
def name_paths : List XPath :=
  [ ⟨true, [⟨.lit sapiURI "baseName", none⟩]⟩
  , ⟨true, [⟨.lit sapiURI "name", none⟩]⟩
  , ⟨true, [⟨.lit sapiProcessURI "name", none⟩]⟩
  , ⟨true, [⟨.bare "baseName", none⟩]⟩
  , ⟨true, [⟨.bare "name", none⟩]⟩ ]

/-- The `for path in paths: elem = process.find(path); if elem is not None
and elem.text: take it; break` pattern (xml_parser.py lines 153-163):
first path whose element is found with truthy text wins. -/
def firstTruthyText (e : XElem) : List XPath → Option String
  | [] => none
  | p :: rest =>
      match e.find p [] with
      | some el => if truthyStr el.text then el.text else firstTruthyText e rest
      | none => firstTruthyText e rest

/-- `ILCDXMLParser._parse_process_element` (xml_parser.py lines 135-165). -/
def _parse_process_element (process : XElem) : DatasetData :=
  { dataset_type := "Process"
  , uuid := firstTruthyText process uuid_paths
  , name := firstTruthyText process name_paths }

/-- Accepted datasets from one path's process elements: those whose dict
has truthy `uuid` and `name` entries (xml_parser.py lines 49-52). -/
def acceptedDatasets (processes : List XElem) : List DatasetData :=
  (processes.map _parse_process_element).filter
    (fun d => truthyStr d.uuid && truthyStr d.name)

/-- The path loop of `parse_datasets_search` (xml_parser.py lines 46-53).
Note: this loop has no early return — unlike the corresponding loop in
`client.py` — so every path whose `findall` is non-empty contributes its
accepted datasets to the shared `datasets` list. -/
def searchLoop (root : XElem) : List XPath → List DatasetData
  | [] => []
  | p :: rest =>
      let processes := root.findall p []
      (if processes.isEmpty then [] else acceptedDatasets processes) ++ searchLoop root rest

/-- `ILCDXMLParser.parse_datasets_search` (xml_parser.py lines 25-54). -/
def parse_datasets_search (xml_content : Except PyErr XElem) :
    Except PyErr (List DatasetData) := do
  let root ← xml_content
  .ok (searchLoop root search_paths)

/-- The namespace map of `parse_dataset` (xml_parser.py lines 60-64),
with a default (`""`) binding. -/
def dataset_ns : NsMap :=
  [("", ilcdProcessURI), ("common", ilcdCommonURI), ("xml", xmlNsURI)]

def path_refFlow : XPath :=
  ⟨true, [⟨.bare "quantitativeReference", none⟩, ⟨.bare "referenceToReferenceFlow", none⟩]⟩

/-- Reference-flow pointer extraction (xml_parser.py lines 66-67):
`int(elem.text)` when the element is found (`int(None)` raises
`TypeError`), else `None`. -/
def refFlowId (root : XElem) : Except PyErr (Option Int) :=
  match root.find path_refFlow dataset_ns with
  | some el => do
      let n ← pyInt el.text
      .ok (some n)
  | none => .ok none

/-- `ILCDXMLParser._get_text` (xml_parser.py lines 234-241):
`result.text.strip() if result is not None and result.text else None`,
with exceptions absorbed to `None` (none can fire in the model). -/
def _get_text (element : XElem) (p : XPath) (ns : NsMap) : Option String :=
  match element.find p ns with
  | some result =>
      match result.text with
      | some s => if s == "" then none else some (pyStrip s)
      | none => none
  | none => none

def path_geography : XPath :=
  ⟨true, [⟨.bare "processInformation", none⟩, ⟨.bare "geography", none⟩,
          ⟨.bare "locationOfOperationSupplyOrProduction", none⟩]⟩

/-- `ILCDXMLParser._get_geography` (xml_parser.py lines 243-250): the
`location` attribute of the geography element. -/
def _get_geography (root : XElem) (ns : NsMap) : Option String :=
  match root.find path_geography ns with
  | some geo => geo.get (.plain "location")
  | none => none

def path_exchanges : XPath :=
  ⟨true, [⟨.bare "exchanges", none⟩, ⟨.bare "exchange", none⟩]⟩

def path_refToFlowDataSet : XPath :=
  ⟨true, [⟨.bare "referenceToFlowDataSet", none⟩]⟩

def path_flowShortDescription : XPath :=
  ⟨true, [⟨.bare "referenceToFlowDataSet", none⟩, ⟨.pfx "common" "shortDescription", none⟩]⟩

def path_exchangeDirection : XPath := ⟨false, [⟨.bare "exchangeDirection", none⟩]⟩

def path_meanAmount : XPath := ⟨false, [⟨.bare "meanAmount", none⟩]⟩

/-- The body of the per-exchange loop of `_parse_exchanges` (xml_parser.py
lines 175-199).  `.ok none` models the `continue` of the
`if None in (flow, direction, amount)` guard.  Note the unguarded
`int(exchange.get("dataSetInternalID"))` on line 176: a missing attribute
gives `int(None)`, a `TypeError`.  The reference flag is
`internal_id == ref_flow_id if ref_flow_id else False`: a `None` or zero
pointer is falsy, so the flag is then `False`. -/
def parseOneExchange (exchange : XElem) (ns : NsMap) (ref_flow_id : Option Int) :
    Except PyErr (Option Exchange) := do
  let internal_id ← pyInt (exchange.get (.plain "dataSetInternalID"))
  let flow_dataset := exchange.find path_refToFlowDataSet ns
  let flow_uuid := match flow_dataset with
    | some fd => fd.get (.plain "refObjectId")
    | none => none
  let flow := exchange.find path_flowShortDescription ns
  let direction := exchange.find path_exchangeDirection ns
  let amount := exchange.find path_meanAmount ns
  match flow, direction, amount with
  | some f, some d, some a => do
      let amt ← pyFloat a.text
      let is_ref : Bool :=
        match ref_flow_id with
        | some r => if r == 0 then false else internal_id == r
        | none => false
      .ok (some { flow_name := f.text, direction := d.text, amount := amt
                , uuid := flow_uuid, is_reference_flow := is_ref })
  | _, _, _ => .ok none

/-- The exchange loop: the first raised exception aborts the whole call,
results gathered so far are discarded (as in Python). -/
def parseExchangeList (ns : NsMap) (ref : Option Int) :
    List XElem → Except PyErr (List Exchange)
  | [] => .ok []
  | x :: rest => do
      let head ← parseOneExchange x ns ref
      let tail ← parseExchangeList ns ref rest
      match head with
      | some e => .ok (e :: tail)
      | none => .ok tail

/-- `ILCDXMLParser._parse_exchanges` (xml_parser.py lines 167-200). -/
def _parse_exchanges (root : XElem) (ns : NsMap) (ref_flow_id : Option Int) :
    Except PyErr (List Exchange) :=
  parseExchangeList ns ref_flow_id (root.findall path_exchanges ns)

def path_baseName_de : XPath :=
  ⟨true, [⟨.bare "processInformation", none⟩, ⟨.bare "dataSetInformation", none⟩,
          ⟨.bare "name", none⟩, ⟨.bare "baseName", some (.pfx "xml" "lang", "de")⟩]⟩

def path_UUID : XPath :=
  ⟨true, [⟨.bare "processInformation", none⟩, ⟨.bare "dataSetInformation", none⟩,
          ⟨.pfx "common" "UUID", none⟩]⟩

def path_generalComment_de : XPath :=
  ⟨true, [⟨.bare "processInformation", none⟩, ⟨.bare "dataSetInformation", none⟩,
          ⟨.pfx "common" "generalComment", some (.pfx "xml" "lang", "de")⟩]⟩

def path_referenceYear : XPath :=
  ⟨true, [⟨.bare "processInformation", none⟩, ⟨.bare "time", none⟩,
          ⟨.pfx "common" "referenceYear", none⟩]⟩

def path_technology_de : XPath :=
  ⟨true, [⟨.bare "processInformation", none⟩, ⟨.bare "technology", none⟩,
          ⟨.bare "technologyDescriptionAndIncludedProcesses", some (.pfx "xml" "lang", "de")⟩]⟩

def path_functionalUnit_de : XPath :=
  ⟨true, [⟨.bare "quantitativeReference", none⟩,
          ⟨.bare "functionalUnitOrOther", some (.pfx "xml" "lang", "de")⟩]⟩

/-- `ILCDXMLParser.parse_dataset` (xml_parser.py lines 56-99). -/
def parse_dataset (xml_content_process : Except PyErr XElem) :
    Except PyErr DatasetDetail := do
  let root ← xml_content_process
  let ref_flow_id ← refFlowId root
  let exchanges ← _parse_exchanges root dataset_ns ref_flow_id
  .ok { name := _get_text root path_baseName_de dataset_ns
      , uuid := _get_text root path_UUID dataset_ns
      , description := _get_text root path_generalComment_de dataset_ns
      , exchanges := exchanges
      , reference_year := _get_text root path_referenceYear dataset_ns
      , geography := _get_geography root dataset_ns
      , technology := _get_text root path_technology_de dataset_ns
      , functional_unit := _get_text root path_functionalUnit_de dataset_ns
      , has_reference_flow := ref_flow_id.isSome }

/-- The namespace map of `parse_flow_info` (xml_parser.py lines 206-209). -/
def flow_ns : NsMap := [("sapi", sapiURI), ("f", sapiFlowURI)]

def path_flow : XPath := ⟨true, [⟨.pfx "f" "flow", none⟩]⟩

def path_flow_uuid : XPath := ⟨false, [⟨.pfx "sapi" "uuid", none⟩]⟩

def path_flow_name : XPath := ⟨false, [⟨.pfx "sapi" "name", none⟩]⟩

def path_flow_type : XPath := ⟨false, [⟨.pfx "f" "type", none⟩]⟩

def path_categories : XPath := ⟨true, [⟨.pfx "sapi" "category", none⟩]⟩

def path_defaultUnit : XPath := ⟨true, [⟨.pfx "f" "defaultUnit", none⟩]⟩

/-- `flow.find(...).text`: Python raises `AttributeError` (`'NoneType'
object has no attribute 'text'`) when `find` returned `None`. -/
def textOfFound : Option XElem → Except PyErr (Option String)
  | some e => .ok e.text
  | none => .error .attributeError

/-- The body of the per-flow loop of `parse_flow_info` (xml_parser.py
lines 212-230): `uuid`, `name`, `type` and `defaultUnit` are dereferenced
with `.text` without a `None` check; the category is the text of the first
category element whose `level` attribute is `"2"`, else `None`. -/
def parseOneFlow (flow : XElem) : Except PyErr Exchange := do
  let uuid ← textOfFound (flow.find path_flow_uuid flow_ns)
  let name ← textOfFound (flow.find path_flow_name flow_ns)
  let flow_type ← textOfFound (flow.find path_flow_type flow_ns)
  let categories := flow.findall path_categories flow_ns
  let category :=
    match categories.find? (fun c => c.get (.plain "level") == some "2") with
    | some c => c.text
    | none => none
  let unit ← textOfFound (flow.find path_defaultUnit flow_ns)
  .ok { flow_name := name, direction := some "", amount := ⟨"0.0"⟩, uuid := uuid
      , type_ := flow_type, category := category, unit := unit }

/-- The flow loop: the first raised exception aborts the call. -/
def flowList : List XElem → Except PyErr (List Exchange)
  | [] => .ok []
  | f :: rest => do
      let e ← parseOneFlow f
      let tail ← flowList rest
      .ok (e :: tail)

/-- `ILCDXMLParser.parse_flow_info` (xml_parser.py lines 202-232). -/
def parse_flow_info (xml_content : Except PyErr XElem) :
    Except PyErr (List Exchange) := do
  let root ← xml_content
  flowList (root.findall path_flow flow_ns)

end ILCDXMLParser

/-! ## `SodaClient.search_datasets`, XML-processing part (bwilcd/client.py)

`client.py` contains an older copy of the same parsing logic inline in
`SodaClient.search_datasets` (lines 89-163).  Its per-element extraction
(lines 121-158) is the same code as `ILCDXMLParser._parse_process_element`
plus the same uuid/name acceptance check, so those parts are shared with
the `ILCDXMLParser` embedding; the differences — the `totalSize` read and
the early `return datasets` after a successful path — are modelled here. -/

namespace SodaClient

/-- `client.py` lines 92-95: read the `totalSize` attribute off the
response root; if truthy, `self.total_size = int(total_size)` (a non-
numeric value raises `ValueError`, which the surrounding `try` does not
catch).  `none` means the attribute was absent or falsy and no value was
stored on the client by this call. -/
def totalSizeOf (root : XElem) : Except PyErr (Option Int) :=
  match root.get (.qualified sapiURI "totalSize") with
  | some s =>
      if truthyStr (some s) then do
        let n ← pyInt (some s)
        .ok (some n)
      else .ok none
  | none => .ok none

/-- The path loop of `SodaClient.search_datasets` (client.py lines
117-161), with the shared `datasets` accumulator: a path with no process
elements is skipped; after a path with process elements is processed the
loop returns `datasets` if it is non-empty.  Falling off the loop reaches
the `return []` on line 163. -/
def searchLoop (root : XElem) : List XPath → List DatasetData → List DatasetData
  | [], _ => []
  | p :: rest, datasets =>
      let processes := root.findall p []
      if processes.isEmpty then searchLoop root rest datasets
      else
        let datasets := datasets ++ ILCDXMLParser.acceptedDatasets processes
        if datasets.isEmpty then searchLoop root rest datasets else datasets

/-- Result of the XML-processing part of `SodaClient.search_datasets` on a
200 response: the value stored into `self.total_size` (if any) and the
returned dataset list. -/
structure SearchOutcome where
  total_size : Option Int
  datasets : List DatasetData
deriving DecidableEq

/-- The XML-processing part of `SodaClient.search_datasets` (client.py
lines 89-163) applied to the outcome of `ET.fromstring(response.content)`:
a `ParseError` is caught (`except ET.ParseError: return []`, with no
total-size stored); other modelled exceptions propagate. -/
def search_datasets (response : Except PyErr XElem) : Except PyErr SearchOutcome :=
  match response with
  | .error .parseError => .ok ⟨none, []⟩
  | .error e => .error e
  | .ok root => do
      let ts ← totalSizeOf root
      .ok ⟨ts, searchLoop root ILCDXMLParser.search_paths []⟩

end SodaClient

/-! ## The correlation/enrichment step -/

/-- Modelled from the spec: the correlation/enrichment step (spec §4.2,
`enrich(dataset_exchanges, flow_metadata)`) is a core component in the
spec but has no implementation under `src/`; only the spec's words
describe it.  Spec: "Build a lookup from `flow_identifier → flow_metadata
record` (last-write-wins if duplicate identifiers occur)".  `insertLast`
is dict assignment `tbl[k] = m`: replace an existing binding, else append. -/
def insertLast (acc : List (Option String × Exchange)) (k : Option String)
    (m : Exchange) : List (Option String × Exchange) :=
  match acc with
  | [] => [(k, m)]
  | (k', m') :: rest => if k' = k then (k, m) :: rest else (k', m') :: insertLast rest k m

/-- Modelled from the spec (§4.2 `enrich`, step 1): the lookup table from
flow identifier to metadata record, built by successive dict assignment,
so a later duplicate identifier overwrites an earlier one. -/
def buildLookup (flow_metadata : List Exchange) : List (Option String × Exchange) :=
  flow_metadata.foldl (fun acc m => insertLast acc m.uuid m) []

/-- Lookup in the table built by `buildLookup`. -/
def lookupMeta (tbl : List (Option String × Exchange)) (k : Option String) :
    Option Exchange :=
  (tbl.find? (fun p => p.1 = k)).map Prod.snd

/-- Modelled from the spec (§4.2 `enrich`, step 2): "produce a new
Exchange carrying: name/direction/amount/identifier/reference-flag from
the dataset exchange, and type/category/unit from the matched metadata". -/
def mergeExchange (d m : Exchange) : Exchange :=
  { flow_name := d.flow_name, direction := d.direction, amount := d.amount
  , uuid := d.uuid, is_reference_flow := d.is_reference_flow
  , type_ := m.type_, category := m.category, unit := m.unit }

/-- Modelled from the spec (§4.2 `enrich`): walk the dataset exchanges in
order, emitting the merge when the lookup matches and dropping the
exchange otherwise (strict inner join). -/
def enrichLoop (tbl : List (Option String × Exchange)) : List Exchange → List Exchange
  | [] => []
  | d :: rest =>
      match lookupMeta tbl d.uuid with
      | some m => mergeExchange d m :: enrichLoop tbl rest
      | none => enrichLoop tbl rest

/-- Modelled from the spec: `enrich(dataset_exchanges, flow_metadata)`
(spec §4.2), absent from `src/`. -/
def enrich (dataset_exchanges flow_metadata : List Exchange) : List Exchange :=
  enrichLoop (buildLookup flow_metadata) dataset_exchanges

/-- The metadata record a dataset exchange is joined with, stated
directly: the last metadata record carrying that flow identifier
(last-write-wins). -/
def lastMetadata (flow_metadata : List Exchange) (k : Option String) : Option Exchange :=
  flow_metadata.reverse.find? (fun m => m.uuid = k)

/-! ## Namespace (re)binding of whole documents

Used to state the namespace-fallback equivalence (claim C7): `qualifyElem
u` is the document that is "identical except that its elements are bound
to namespace `u`"; per XML rules a default namespace declaration applies
to element tags only, never to attribute names, so attributes are
untouched. -/

/-- Qualify a plain name with namespace `u`; leave qualified names alone. -/
def qualifyQName (u : String) : QName → QName
  | .plain s => .qualified u s
  | .qualified v s => .qualified v s

mutual
/-- Rebind every element tag of a document to namespace `u`. -/
def qualifyElem (u : String) : XElem → XElem
  | .mk t a s cs => .mk (qualifyQName u t) a s (qualifyForest u cs)
def qualifyForest (u : String) : XForest → XForest
  | .nil => .nil
  | .cons c rest => .cons (qualifyElem u c) (qualifyForest u rest)
end

mutual
/-- Every element tag in the document is plain (a no-namespace document). -/
def plainElem : XElem → Bool
  | .mk t _ _ cs => (match t with | .plain _ => true | .qualified _ _ => false) && plainForest cs
def plainForest : XForest → Bool
  | .nil => true
  | .cons c rest => plainElem c && plainForest rest
end

/-- First non-empty list among a list of lists, else `[]`: the result
shape of a "try strategies in priority order" loop. -/
def firstNonempty (ls : List (List StockData)) : List StockData :=
  (ls.find? (fun l => !l.isEmpty)).getD []

/-- The accepted datasets of the first top-level path (in priority order)
that yields any accepted dataset, else `[]`: the stop-at-first-success
contract of the spec. -/
def firstAccepted (root : XElem) : List XPath → List DatasetData
  | [] => []
  | p :: rest =>
      let acc := ILCDXMLParser.acceptedDatasets (root.findall p [])
      if acc.isEmpty then firstAccepted root rest else acc

/-! ## Concrete documents (inputs for witnesses and counterexamples) -/

/-- Element with qualified tag, no attributes/text. -/
def nodeQ (uri t : String) (cs : List XElem) : XElem :=
  XElem.node (.qualified uri t) [] none cs

/-- Leaf with qualified tag and text. -/
def textQ (uri t s : String) : XElem :=
  XElem.node (.qualified uri t) [] (some s) []

/-- Element with plain tag, no attributes/text. -/
def nodeP (t : String) (cs : List XElem) : XElem :=
  XElem.node (.plain t) [] none cs

/-- Leaf with plain tag and text. -/
def textP (t s : String) : XElem :=
  XElem.node (.plain t) [] (some s) []

/-- Minimal stocks document in the first-priority namespace: one
`dataStock` with uuid `"s-1"` and shortName `"Test Stock"`, no
description element (spec §8 scenario 6). -/
def stocksDoc : XElem :=
  nodeQ sapiURI "dataStockList"
    [ nodeQ sapiURI "dataStock"
        [ textQ sapiURI "uuid" "s-1", textQ sapiURI "shortName" "Test Stock" ] ]

/-- Same stock but with a `description` element that is present and empty
(its text is `None`). -/
def stocksDocEmptyDesc : XElem :=
  nodeQ sapiURI "dataStockList"
    [ nodeQ sapiURI "dataStock"
        [ textQ sapiURI "uuid" "s-1", textQ sapiURI "shortName" "Test Stock"
        , XElem.node (.qualified sapiURI "description") [] none [] ] ]

/-- The same minimal stocks document with no namespace at all. -/
def stocksDocPlain : XElem :=
  nodeP "dataStockList"
    [ nodeP "dataStock" [ textP "uuid" "s-1", textP "shortName" "Test Stock" ] ]

/-- A stock element missing its `shortName`. -/
def stocksDocNoName : XElem :=
  nodeQ sapiURI "dataStockList"
    [ nodeQ sapiURI "dataStock" [ textQ sapiURI "uuid" "s-2" ] ]

/-- The record `parse_stocks` builds from `stocksDoc`. -/
def stockRec : StockData :=
  { uuid := some (some "s-1"), name := some (some "Test Stock"), description := none }

/-- A search response with one accepted dataset under the first top-level
path (`{ServiceAPI}processDataSet`) and another under the fourth
(no-namespace `process`). -/
def searchDocTwoPaths : XElem :=
  nodeP "result"
    [ nodeQ sapiURI "processDataSet"
        [ textQ sapiURI "uuid" "u1", textQ sapiURI "baseName" "Process One" ]
    , nodeP "process" [ textP "uuid" "u2", textP "name" "Process Two" ] ]

def datasetOne : DatasetData := { dataset_type := "Process", uuid := some "u1", name := some "Process One" }

def datasetTwo : DatasetData := { dataset_type := "Process", uuid := some "u2", name := some "Process Two" }

/-- A search response whose root carries a server-declared
`{ServiceAPI}totalSize` attribute. -/
def searchDocTotal (total : String) : XElem :=
  XElem.node (.plain "result") [(.qualified sapiURI "totalSize", total)] none
    [ nodeQ sapiURI "processDataSet"
        [ textQ sapiURI "uuid" "u1", textQ sapiURI "baseName" "Process One" ] ]

/-- A `referenceToFlowDataSet` element with a `refObjectId` attribute and
a `common:shortDescription` child. -/
def flowRef (uuid desc : String) : XElem :=
  XElem.node (.qualified ilcdProcessURI "referenceToFlowDataSet")
    [(.plain "refObjectId", uuid)] none
    [ textQ ilcdCommonURI "shortDescription" desc ]

/-- A complete exchange element with the given internal id. -/
def fullExchange (internalId uuid desc dir amt : String) : XElem :=
  XElem.node (.qualified ilcdProcessURI "exchange")
    [(.plain "dataSetInternalID", internalId)] none
    [ flowRef uuid desc
    , textQ ilcdProcessURI "exchangeDirection" dir
    , textQ ilcdProcessURI "meanAmount" amt ]

/-- A process dataset with reference-flow pointer `ptr` and three complete
exchanges with internal ids 1, 2, 3 (spec §8 scenario 4). -/
def datasetDoc (ptr : String) : XElem :=
  nodeQ ilcdProcessURI "processDataSet"
    [ nodeQ ilcdProcessURI "quantitativeReference"
        [ textQ ilcdProcessURI "referenceToReferenceFlow" ptr ]
    , nodeQ ilcdProcessURI "exchanges"
        [ fullExchange "1" "fa" "Flow A" "Input" "1.5"
        , fullExchange "2" "fb" "Flow B" "Output" "2.0"
        , fullExchange "3" "fc" "Flow C" "Output" "0.5" ] ]

/-- The exchange records `parse_dataset` builds from `datasetDoc`. -/
def exchangeRec (nm uid dir amt : String) (ref : Bool) : Exchange :=
  { flow_name := some nm, direction := some dir, amount := ⟨amt⟩
  , uuid := some uid, is_reference_flow := ref }

/-- The dataset record `parse_dataset` builds from `datasetDoc ptr`; only
the flags depend on the pointer. -/
def datasetDetailOf (f1 f2 f3 : Bool) : DatasetDetail :=
  { name := none, uuid := none, description := none
  , exchanges :=
      [ exchangeRec "Flow A" "fa" "Input" "1.5" f1
      , exchangeRec "Flow B" "fb" "Output" "2.0" f2
      , exchangeRec "Flow C" "fc" "Output" "0.5" f3 ]
  , reference_year := none, geography := none, technology := none
  , functional_unit := none, has_reference_flow := true }

/-- A dataset whose only exchange is missing the `dataSetInternalID`
attribute (but is otherwise complete). -/
def datasetDocNoId : XElem :=
  nodeQ ilcdProcessURI "processDataSet"
    [ nodeQ ilcdProcessURI "exchanges"
        [ XElem.node (.qualified ilcdProcessURI "exchange") [] none
            [ flowRef "fa" "Flow A"
            , textQ ilcdProcessURI "exchangeDirection" "Input"
            , textQ ilcdProcessURI "meanAmount" "1.0" ] ] ]

/-- A dataset whose only exchange is missing its `exchangeDirection`
child (so the exchange is skipped, not an error). -/
def datasetDocNoDirection : XElem :=
  nodeQ ilcdProcessURI "processDataSet"
    [ nodeQ ilcdProcessURI "exchanges"
        [ XElem.node (.qualified ilcdProcessURI "exchange")
            [(.plain "dataSetInternalID", "1")] none
            [ flowRef "fa" "Flow A"
            , textQ ilcdProcessURI "meanAmount" "1.0" ] ] ]

/-- A flow element carrying name, type and defaultUnit but NO
`sapi:uuid` child. -/
def flowElemNoUuid : XElem :=
  XElem.node (.qualified sapiFlowURI "flow") [] none
    [ textQ sapiURI "name" "Water"
    , textQ sapiFlowURI "type" "Elementary flow"
    , textQ sapiFlowURI "defaultUnit" "kg" ]

/-- A flow-information response whose single flow lacks its uuid. -/
def flowDocNoUuid : XElem :=
  nodeP "flowDataList" [ flowElemNoUuid ]

/-- A complete flow element whose only category has level `"1"` (no
level-2 category). -/
def flowElemNoCat2 : XElem :=
  XElem.node (.qualified sapiFlowURI "flow") [] none
    [ textQ sapiURI "uuid" "f-1"
    , textQ sapiURI "name" "Water"
    , textQ sapiFlowURI "type" "Elementary flow"
    , XElem.node (.qualified sapiURI "category") [(.plain "level", "1")] (some "Resources") []
    , textQ sapiFlowURI "defaultUnit" "kg" ]

/-- A flow-information response whose single flow has no level-2
category. -/
def flowDocNoCat2 : XElem :=
  nodeP "flowDataList" [ flowElemNoCat2 ]

/-- The `Exchange` that `parse_flow_info` builds from `flowElemNoCat2`. -/
def flowRecNoCat2 : Exchange :=
  { flow_name := some "Water", direction := some "", amount := ⟨"0.0"⟩
  , uuid := some "f-1", type_ := some "Elementary flow", category := none
  , unit := some "kg" }

/-- Dataset-side exchanges for the enrichment witness. -/
def dsExchA : Exchange :=
  { flow_name := some "Flow A", direction := some "Input", amount := ⟨"1.5"⟩, uuid := some "fa" }

def dsExchB : Exchange :=
  { flow_name := some "Flow B", direction := some "Output", amount := ⟨"2.0"⟩
  , uuid := some "fb", is_reference_flow := true }

def dsExchC : Exchange :=
  { flow_name := some "Flow C", direction := some "Output", amount := ⟨"0.5"⟩, uuid := some "fc" }

/-- Flow-metadata records (as `parse_flow_info` produces them) covering
only `fa` and `fc`. -/
def metaA : Exchange :=
  { flow_name := some "Flow A", direction := some "", amount := ⟨"0.0"⟩
  , uuid := some "fa", type_ := some "Product flow", category := some "Materials"
  , unit := some "kg" }

def metaC : Exchange :=
  { flow_name := some "Flow C", direction := some "", amount := ⟨"0.0"⟩
  , uuid := some "fc", type_ := some "Elementary flow", category := none
  , unit := some "MJ" }

/-- The dataset record `parse_dataset` builds from a document with no
reference-flow pointer and no accepted exchange. -/
def datasetDetailEmpty : DatasetDetail :=
  { name := none, uuid := none, description := none, exchanges := []
  , reference_year := none, geography := none, technology := none
  , functional_unit := none, has_reference_flow := false }

/-! # Theorems

## C1: enrichment is a stable inner join -/

theorem lookupMeta_insertLast (acc : List (Option String × Exchange))
    (k : Option String) (m : Exchange) (k' : Option String) :
    lookupMeta (insertLast acc k m) k' = if k' = k then some m else lookupMeta acc k' := by
  induction acc with
  | nil =>
      by_cases h : k' = k
      · subst h; simp [insertLast, lookupMeta, List.find?]
      · have h2 : ¬k = k' := fun hc => h hc.symm
        simp [insertLast, lookupMeta, List.find?, h, h2]
  | cons hd tl ih =>
      obtain ⟨k0, m0⟩ := hd
      by_cases hk : k0 = k
      · subst hk
        by_cases h' : k' = k0
        · subst h'; simp [insertLast, lookupMeta, List.find?]
        · have h2 : ¬k0 = k' := fun hc => h' hc.symm
          simp [insertLast, lookupMeta, List.find?, h', h2]
      · by_cases h0 : k0 = k'
        · subst h0
          have hne : ¬k0 = k := hk
          simp [insertLast, hne, lookupMeta, List.find?, fun hc => hk (hc : k0 = k)]
        · simp only [insertLast, if_neg hk]
          have hL : lookupMeta ((k0, m0) :: insertLast tl k m) k' =
              lookupMeta (insertLast tl k m) k' := by
            simp [lookupMeta, List.find?, h0]
          have hR : lookupMeta ((k0, m0) :: tl) k' = lookupMeta tl k' := by
            simp [lookupMeta, List.find?, h0]
          rw [hL, ih, hR]

theorem lookupMeta_foldl (fms : List Exchange) (acc : List (Option String × Exchange))
    (k : Option String) :
    lookupMeta (fms.foldl (fun a m => insertLast a m.uuid m) acc) k =
      match fms.reverse.find? (fun m => m.uuid = k) with
      | some m => some m
      | none => lookupMeta acc k := by
  induction fms generalizing acc with
  | nil => simp
  | cons m rest ih =>
      simp only [List.foldl_cons, List.reverse_cons]
      rw [ih, List.find?_append]
      cases h : rest.reverse.find? (fun x => decide (x.uuid = k)) with
      | some x => simp [h]
      | none =>
          simp only [h, Option.none_orElse]
          rw [lookupMeta_insertLast]
          by_cases hm : m.uuid = k
          · subst hm
            simp [List.find?]
          · have hm' : ¬k = m.uuid := fun hc => hm hc.symm
            simp [List.find?, hm, hm']

theorem lookupMeta_buildLookup (fms : List Exchange) (k : Option String) :
    lookupMeta (buildLookup fms) k = lastMetadata fms k := by
  unfold buildLookup lastMetadata
  rw [lookupMeta_foldl]
  cases h : fms.reverse.find? (fun m => m.uuid = k) <;> simp [h, lookupMeta, List.find?]

theorem enrichLoop_eq_filterMap (tbl : List (Option String × Exchange))
    (des : List Exchange) :
    enrichLoop tbl des =
      des.filterMap (fun d => (lookupMeta tbl d.uuid).map (mergeExchange d)) := by
  induction des with
  | nil => rfl
  | cons d rest ih => cases h : lookupMeta tbl d.uuid <;> simp [enrichLoop, h, ih]

/-- C1: `enrich` keeps exactly the dataset exchanges whose flow identifier
has a matching metadata record (strict inner join, last-write-wins on
duplicate metadata identifiers), each output record merging
name/direction/amount/identifier/reference-flag from the dataset exchange
with type/category/unit from the matched metadata (`mergeExchange`), in
the relative input order of the matched dataset exchanges (`filterMap`
preserves order); and for a dataset exchange with no matching metadata
record, no record carrying its flow identifier appears in the output. -/
theorem enrich_stable_inner_join :
    (∀ des fms : List Exchange,
       enrich des fms =
         des.filterMap (fun d => (lastMetadata fms d.uuid).map (mergeExchange d)))
    ∧ (∀ des fms : List Exchange, ∀ d ∈ des, lastMetadata fms d.uuid = none →
         ∀ e ∈ enrich des fms, e.uuid ≠ d.uuid) := by
  have hmain : ∀ des fms : List Exchange,
      enrich des fms =
        des.filterMap (fun d => (lastMetadata fms d.uuid).map (mergeExchange d)) := by
    intro des fms
    unfold enrich
    rw [enrichLoop_eq_filterMap]
    have : (fun d => (lookupMeta (buildLookup fms) d.uuid).map (mergeExchange d)) =
        (fun d => (lastMetadata fms d.uuid).map (mergeExchange d)) :=
      funext fun d => by rw [lookupMeta_buildLookup]
    rw [this]
  refine ⟨hmain, ?_⟩
  intro des fms d hd hnone e he
  rw [hmain] at he
  obtain ⟨d', hd', hmap⟩ := List.mem_filterMap.mp he
  cases hlast : lastMetadata fms d'.uuid with
  | none => rw [hlast] at hmap; simp at hmap
  | some m =>
      rw [hlast] at hmap
      simp only [Option.map_some'] at hmap
      obtain rfl := Option.some.inj hmap
      intro hc
      have he' : (mergeExchange d' m).uuid = d'.uuid := rfl
      rw [he'] at hc
      rw [hc] at hlast
      rw [hlast] at hnone
      exact Option.noConfusion hnone

/-- Witness for C1: three dataset exchanges, metadata covering only the
first and third; the join keeps exactly those two, in order, and no
output record carries the uncovered identifier. -/
theorem enrich_stable_inner_join_witness :
    (enrich [dsExchA, dsExchB, dsExchC] [metaA, metaC] =
      [dsExchA, dsExchB, dsExchC].filterMap
        (fun d => (lastMetadata [metaA, metaC] d.uuid).map (mergeExchange d)))
    ∧ dsExchB ∈ [dsExchA, dsExchB, dsExchC]
    ∧ lastMetadata [metaA, metaC] dsExchB.uuid = none
    ∧ (∀ e ∈ enrich [dsExchA, dsExchB, dsExchC] [metaA, metaC], e.uuid ≠ dsExchB.uuid) :=
  ⟨enrich_stable_inner_join.1 [dsExchA, dsExchB, dsExchC] [metaA, metaC],
   by decide, by decide,
   enrich_stable_inner_join.2 [dsExchA, dsExchB, dsExchC] [metaA, metaC]
     dsExchB (by decide) (by decide)⟩

/-! ## C2: reference-flow flagging -/

theorem parseOneExchange_ok_some (x : XElem) (ns : NsMap) (ref : Option Int)
    (ex : Exchange)
    (h : ILCDXMLParser.parseOneExchange x ns ref = .ok (some ex)) :
    ∃ i, pyInt (x.get (.plain "dataSetInternalID")) = .ok i ∧
      (ex.is_reference_flow = true ↔ ∃ r, ref = some r ∧ r ≠ 0 ∧ i = r) := by
  unfold ILCDXMLParser.parseOneExchange at h
  cases hi : pyInt (x.get (.plain "dataSetInternalID")) with
  | error e => rw [hi] at h; simp [Bind.bind, Except.bind] at h
  | ok i =>
      rw [hi] at h
      simp only [Bind.bind, Except.bind] at h
      refine ⟨i, rfl, ?_⟩
      cases hf : x.find ILCDXMLParser.path_flowShortDescription ns with
      | none => rw [hf] at h; simp at h
      | some f =>
      rw [hf] at h
      cases hd : x.find ILCDXMLParser.path_exchangeDirection ns with
      | none => rw [hd] at h; simp at h
      | some dd =>
      rw [hd] at h
      cases ha : x.find ILCDXMLParser.path_meanAmount ns with
      | none => rw [ha] at h; simp at h
      | some a =>
      rw [ha] at h
      simp only at h
      cases hamt : pyFloat a.text with
      | error e => rw [hamt] at h; simp [Bind.bind, Except.bind] at h
      | ok amt =>
          rw [hamt] at h
          simp only [Bind.bind, Except.bind, Except.ok.injEq, Option.some.injEq] at h
          subst h
          cases ref with
          | none => simp
          | some r =>
              by_cases hr : r = 0
              · subst hr; simp
              · have hb : (r == 0) = false := by simpa using hr
                simp only [hb, Bool.false_eq_true, if_false, beq_iff_eq]
                constructor
                · intro hir; exact ⟨r, rfl, hr, hir⟩
                · rintro ⟨r', hrr, hr0, hir⟩
                  cases hrr; exact hir

theorem parseExchangeList_mem (ns : NsMap) (ref : Option Int) :
    ∀ (xs : List XElem) (out : List Exchange),
      ILCDXMLParser.parseExchangeList ns ref xs = .ok out →
      ∀ e ∈ out, ∃ x ∈ xs, ILCDXMLParser.parseOneExchange x ns ref = .ok (some e) := by
  intro xs
  induction xs with
  | nil =>
      intro out h e he
      unfold ILCDXMLParser.parseExchangeList at h
      simp only [Except.ok.injEq] at h
      subst h
      exact absurd he (List.not_mem_nil e)
  | cons x rest ih =>
      intro out h e he
      unfold ILCDXMLParser.parseExchangeList at h
      cases hx : ILCDXMLParser.parseOneExchange x ns ref with
      | error er => rw [hx] at h; simp [Bind.bind, Except.bind] at h
      | ok headOpt =>
          rw [hx] at h
          cases ht : ILCDXMLParser.parseExchangeList ns ref rest with
          | error er => rw [ht] at h; simp [Bind.bind, Except.bind] at h
          | ok tail =>
              rw [ht] at h
              simp only [Bind.bind, Except.bind] at h
              cases headOpt with
              | some e0 =>
                  simp only [Except.ok.injEq] at h
                  subst h
                  rcases List.mem_cons.mp he with rfl | hmem
                  · exact ⟨x, List.mem_cons_self x rest, hx⟩
                  · obtain ⟨x', hx', hpx'⟩ := ih tail ht e hmem
                    exact ⟨x', List.mem_cons_of_mem x hx', hpx'⟩
              | none =>
                  simp only [Except.ok.injEq] at h
                  subst h
                  obtain ⟨x', hx', hpx'⟩ := ih tail ht e he
                  exact ⟨x', List.mem_cons_of_mem x hx', hpx'⟩

theorem parse_dataset_ok_parts (root : XElem) (d : DatasetDetail)
    (h : ILCDXMLParser.parse_dataset (.ok root) = .ok d) :
    ∃ ref, ILCDXMLParser.refFlowId root = .ok ref ∧
      ILCDXMLParser._parse_exchanges root ILCDXMLParser.dataset_ns ref = .ok d.exchanges := by
  unfold ILCDXMLParser.parse_dataset at h
  simp only [Bind.bind, Except.bind] at h
  cases hr : ILCDXMLParser.refFlowId root with
  | error er => rw [hr] at h; simp at h
  | ok ref =>
      rw [hr] at h
      dsimp only at h
      cases hx : ILCDXMLParser._parse_exchanges root ILCDXMLParser.dataset_ns ref with
      | error er => rw [hx] at h; simp at h
      | ok exs =>
          rw [hx] at h
          dsimp only at h
          simp only [Except.ok.injEq] at h
          subst h
          exact ⟨ref, rfl, hx⟩

/-- C2: for every dataset document accepted by `parse_dataset`, each
extracted exchange `e` comes from an exchange element `x` of the document
(`parseOneExchange x … = .ok (some e)` ties `e` to its producing
element), and `e.is_reference_flow = true` iff that element's own
`dataSetInternalID` integer equals the document's declared reference-flow
pointer and that pointer is present and non-zero; in particular, when the
pointer is exactly `0`, no extracted exchange is flagged (the falsy-check
quirk of `if ref_flow_id`). -/
theorem reference_flow_flagging :
    ∀ (root : XElem) (d : DatasetDetail),
      ILCDXMLParser.parse_dataset (.ok root) = .ok d →
      ∃ ref, ILCDXMLParser.refFlowId root = .ok ref ∧
        (∀ e ∈ d.exchanges,
           ∃ x ∈ root.findall ILCDXMLParser.path_exchanges ILCDXMLParser.dataset_ns,
             ILCDXMLParser.parseOneExchange x ILCDXMLParser.dataset_ns ref = .ok (some e) ∧
             ∃ i, pyInt (x.get (.plain "dataSetInternalID")) = .ok i ∧
               (e.is_reference_flow = true ↔ ∃ r, ref = some r ∧ r ≠ 0 ∧ i = r)) ∧
        (ref = some 0 → ∀ e ∈ d.exchanges, e.is_reference_flow = false) := by
  intro root d h
  obtain ⟨ref, href, hex⟩ := parse_dataset_ok_parts root d h
  refine ⟨ref, href, ?_, ?_⟩
  · intro e he
    obtain ⟨x, hx, hpx⟩ :=
      parseExchangeList_mem ILCDXMLParser.dataset_ns ref
        (root.findall ILCDXMLParser.path_exchanges ILCDXMLParser.dataset_ns)
        d.exchanges hex e he
    obtain ⟨i, hi, hiff⟩ := parseOneExchange_ok_some x ILCDXMLParser.dataset_ns ref e hpx
    exact ⟨x, hx, hpx, i, hi, hiff⟩
  · rintro rfl e he
    obtain ⟨x, hx, hpx⟩ :=
      parseExchangeList_mem ILCDXMLParser.dataset_ns (some 0)
        (root.findall ILCDXMLParser.path_exchanges ILCDXMLParser.dataset_ns)
        d.exchanges hex e he
    obtain ⟨i, hi, hiff⟩ := parseOneExchange_ok_some x ILCDXMLParser.dataset_ns (some 0) e hpx
    cases hflag : e.is_reference_flow
    · rfl
    · obtain ⟨r, hr, hr0, _⟩ := hiff.mp hflag
      cases hr
      exact absurd rfl hr0

/-- Witness for C2: the three-exchange dataset with internal ids 1,2,3.
With pointer "2" the parse succeeds producing flags false/true/false, and
with pointer "0" it produces no flag at all; the theorem applies to both
parses. -/
theorem reference_flow_flagging_witness :
    (∃ ref, ILCDXMLParser.refFlowId (datasetDoc "2") = .ok ref ∧
       (∀ e ∈ (datasetDetailOf false true false).exchanges,
          ∃ x ∈ (datasetDoc "2").findall ILCDXMLParser.path_exchanges ILCDXMLParser.dataset_ns,
            ILCDXMLParser.parseOneExchange x ILCDXMLParser.dataset_ns ref = .ok (some e) ∧
            ∃ i, pyInt (x.get (.plain "dataSetInternalID")) = .ok i ∧
              (e.is_reference_flow = true ↔ ∃ r, ref = some r ∧ r ≠ 0 ∧ i = r)) ∧
       (ref = some 0 → ∀ e ∈ (datasetDetailOf false true false).exchanges,
          e.is_reference_flow = false))
    ∧ (∃ ref, ILCDXMLParser.refFlowId (datasetDoc "0") = .ok ref ∧
       (∀ e ∈ (datasetDetailOf false false false).exchanges,
          ∃ x ∈ (datasetDoc "0").findall ILCDXMLParser.path_exchanges ILCDXMLParser.dataset_ns,
            ILCDXMLParser.parseOneExchange x ILCDXMLParser.dataset_ns ref = .ok (some e) ∧
            ∃ i, pyInt (x.get (.plain "dataSetInternalID")) = .ok i ∧
              (e.is_reference_flow = true ↔ ∃ r, ref = some r ∧ r ≠ 0 ∧ i = r)) ∧
       (ref = some 0 → ∀ e ∈ (datasetDetailOf false false false).exchanges,
          e.is_reference_flow = false)) :=
  ⟨reference_flow_flagging (datasetDoc "2") (datasetDetailOf false true false) (by decide),
   reference_flow_flagging (datasetDoc "0") (datasetDetailOf false false false) (by decide)⟩

/-! ## C3: stopping at the first successful top-level path -/

theorem clientSearchLoop_eq_firstAccepted (root : XElem) :
    ∀ paths : List XPath, SodaClient.searchLoop root paths [] = firstAccepted root paths := by
  intro paths
  induction paths with
  | nil => rfl
  | cons p rest ih =>
      unfold SodaClient.searchLoop firstAccepted
      by_cases hp : (root.findall p []).isEmpty
      · have hnil : root.findall p [] = [] := by simpa using hp
        have ha : ILCDXMLParser.acceptedDatasets (root.findall p []) = [] := by
          rw [hnil]; rfl
        simp [hp, ha, ih]
      · by_cases hacc : (ILCDXMLParser.acceptedDatasets (root.findall p [])).isEmpty
        · have hanil : ILCDXMLParser.acceptedDatasets (root.findall p []) = [] := by
            simpa using hacc
          simp [hp, hanil, ih]
        · simp [hp, hacc]

theorem searchLoop_eq_flatten (root : XElem) :
    ∀ paths : List XPath,
      ILCDXMLParser.searchLoop root paths =
        (paths.map (fun p => ILCDXMLParser.acceptedDatasets (root.findall p []))).flatten := by
  intro paths
  induction paths with
  | nil => rfl
  | cons p rest ih =>
      unfold ILCDXMLParser.searchLoop
      by_cases hp : (root.findall p []).isEmpty
      · have hnil : root.findall p [] = [] := by simpa using hp
        have ha : ILCDXMLParser.acceptedDatasets (root.findall p []) = [] := by
          rw [hnil]; rfl
        simp [hp, ha, ih]
      · simp [hp, ih]

/-- C3 counterexample: a response with one accepted dataset under the
first top-level path and another under the fourth.
`ILCDXMLParser.parse_datasets_search` (xml_parser.py lines 46-53, which
has no early return) returns both, merged across paths, instead of
stopping at the first path that yielded an accepted dataset. -/
theorem search_paths_merge_counterexample :
    ILCDXMLParser.parse_datasets_search (.ok searchDocTwoPaths) = .ok [datasetOne, datasetTwo]
    ∧ firstAccepted searchDocTwoPaths ILCDXMLParser.search_paths = [datasetOne]
    ∧ ([datasetOne, datasetTwo] : List DatasetData) ≠ [datasetOne] :=
  ⟨by decide, by decide, by decide⟩

/-- C3 (amended): the early return is present only in the older copy of
the loop inside `SodaClient.search_datasets` (client.py lines 117-161),
which returns exactly the accepted datasets of the first top-level path
yielding any accepted dataset; `ILCDXMLParser.parse_datasets_search`
(xml_parser.py lines 46-53) instead iterates every path and concatenates
the accepted datasets of all paths. -/
theorem search_paths_stop_amended :
    (∀ (root : XElem) (paths : List XPath),
       SodaClient.searchLoop root paths [] = firstAccepted root paths)
    ∧ (∀ root : XElem,
       ILCDXMLParser.parse_datasets_search (.ok root) =
         .ok ((ILCDXMLParser.search_paths.map
             (fun p => ILCDXMLParser.acceptedDatasets (root.findall p []))).flatten)) := by
  refine ⟨fun root paths => clientSearchLoop_eq_firstAccepted root paths, fun root => ?_⟩
  show Except.ok (ILCDXMLParser.searchLoop root ILCDXMLParser.search_paths) = _
  rw [searchLoop_eq_flatten]

/-! ## C4: handling of absent elements and attributes -/

/-- C4 counterexample: `parse_flow_info` on a flow element missing its
`uuid` raises (`AttributeError`, from `flow.find("sapi:uuid", ns).text`
on a `None` find result, xml_parser.py line 213) instead of softly
omitting the field. -/
theorem flow_info_missing_uuid_raises :
    ILCDXMLParser.parse_flow_info (.ok flowDocNoUuid) = .error .attributeError := by decide

/-- C4 (amended): absence is handled softly where the code checks for it —
an exchange missing flow/direction/amount children is skipped, a stock
missing uuid/shortName is dropped, `_get_text` returns `None` for an
absent element, a flow with no level-2 category gets a `None` category —
but `parse_dataset` raises `TypeError` on an exchange element missing the
`dataSetInternalID` attribute (`int(None)`, xml_parser.py line 176), and
`parse_flow_info` raises `AttributeError` when a flow lacks its uuid,
name, type or defaultUnit element (xml_parser.py lines 213-218). -/
theorem absence_handling_amended :
    ILCDXMLParser.parse_dataset (.ok datasetDocNoId) = .error .typeError
    ∧ ILCDXMLParser.parse_dataset (.ok datasetDocNoDirection) = .ok datasetDetailEmpty
    ∧ ILCDXMLParser._try_parse_stocks stocksDocNoName [("ns", sapiURI)] = []
    ∧ ILCDXMLParser._get_text stocksDoc ILCDXMLParser.path_baseName_de
        ILCDXMLParser.dataset_ns = none
    ∧ ILCDXMLParser.parse_flow_info (.ok flowDocNoCat2) = .ok [flowRecNoCat2] :=
  ⟨by decide, by decide, by decide, by decide, by decide⟩

/-! ## C5: the server-declared total result count -/

theorem findall_ignores_root_attrs (t : QName) (a₁ a₂ : List (QName × String))
    (tx : Option String) (cs : XForest) (p : XPath) (ns : NsMap) :
    XElem.findall (.mk t a₁ tx cs) p ns = XElem.findall (.mk t a₂ tx cs) p ns := by
  unfold XElem.findall
  cases hs : p.steps with
  | nil => rfl
  | cons st rest =>
      cases hd : p.deep <;>
        simp [XElem.descendants, XElem.children, hd]

theorem searchLoop_ignores_root_attrs (t : QName) (a₁ a₂ : List (QName × String))
    (tx : Option String) (cs : XForest) :
    ∀ paths : List XPath,
      ILCDXMLParser.searchLoop (.mk t a₁ tx cs) paths =
        ILCDXMLParser.searchLoop (.mk t a₂ tx cs) paths := by
  intro paths
  induction paths with
  | nil => rfl
  | cons p rest ih =>
      unfold ILCDXMLParser.searchLoop
      rw [findall_ignores_root_attrs t a₁ a₂ tx cs p [], ih]

/-- C5 counterexample: two responses identical except for the
server-declared `totalSize` attribute (42 vs 7) give the same
`parse_datasets_search` result — a bare dataset list — so
`ILCDXMLParser.parse_datasets_search` does not expose the total result
count to its caller. -/
theorem total_size_not_in_parse_output :
    ILCDXMLParser.parse_datasets_search (.ok (searchDocTotal "42")) =
      ILCDXMLParser.parse_datasets_search (.ok (searchDocTotal "7"))
    ∧ ILCDXMLParser.parse_datasets_search (.ok (searchDocTotal "42")) = .ok [datasetOne] :=
  ⟨by decide, by decide⟩

/-- C5 (amended): the total count is read not by
`ILCDXMLParser.parse_datasets_search` (whose result ignores the response
root's attributes entirely) but by `SodaClient.search_datasets`, which
pulls the `{ServiceAPI}totalSize` attribute off the response root and
stores its integer value as client state (`self.total_size`, client.py
lines 92-95) for pagination. -/
theorem total_size_client_amended :
    (∀ (root : XElem) (s : String) (n : Int),
       root.get (.qualified sapiURI "totalSize") = some s → s ≠ "" →
       intLit? s = some n →
       SodaClient.totalSizeOf root = .ok (some n))
    ∧ (∀ (t : QName) (a₁ a₂ : List (QName × String)) (tx : Option String) (cs : XForest),
       ILCDXMLParser.parse_datasets_search (.ok (.mk t a₁ tx cs)) =
         ILCDXMLParser.parse_datasets_search (.ok (.mk t a₂ tx cs))) := by
  constructor
  · intro root s n hget hne hint
    unfold SodaClient.totalSizeOf
    rw [hget]
    have ht : truthyStr (some s) = true := by simp [truthyStr, hne]
    simp [ht, pyInt, hint, Bind.bind, Except.bind]
  · intro t a₁ a₂ tx cs
    show Except.ok (ILCDXMLParser.searchLoop (XElem.mk t a₁ tx cs) ILCDXMLParser.search_paths) =
      Except.ok (ILCDXMLParser.searchLoop (XElem.mk t a₂ tx cs) ILCDXMLParser.search_paths)
    rw [searchLoop_ignores_root_attrs t a₁ a₂ tx cs]

/-- Witness for C5 (amended), at a response declaring `totalSize="42"`. -/
theorem total_size_client_amended_witness :
    (searchDocTotal "42").get (.qualified sapiURI "totalSize") = some "42"
    ∧ ("42" : String) ≠ ""
    ∧ intLit? "42" = some 42
    ∧ SodaClient.totalSizeOf (searchDocTotal "42") = .ok (some 42) :=
  ⟨by decide, by decide, by decide,
   total_size_client_amended.1 (searchDocTotal "42") "42" 42 (by decide) (by decide)
     (by decide)⟩

/-! ## C6: the minimal stocks round trip -/

/-- C6 counterexample: on the minimal stocks document with no description
element, the stock record does NOT carry a `description` key equal to
`""` — the key is simply absent (`description.text or ""` runs only when
the element exists, xml_parser.py lines 126-127). -/
theorem stocks_description_absent_counterexample :
    ILCDXMLParser.parse_stocks (.ok stocksDoc) ≠
      .ok [{ uuid := some (some "s-1"), name := some (some "Test Stock")
           , description := some (some "") }] := by decide

/-- C6 (amended): the minimal stocks document parses to exactly one record
`{uuid: "s-1", name: "Test Stock"}` with NO description entry; the
empty-string default applies only when a description element is present
but empty. -/
theorem stocks_roundtrip_amended :
    ILCDXMLParser.parse_stocks (.ok stocksDoc) = .ok [stockRec]
    ∧ ILCDXMLParser.parse_stocks (.ok stocksDocEmptyDesc) =
        .ok [{ stockRec with description := some (some "") }] :=
  ⟨by decide, by decide⟩

/-! ## C9: malformed XML propagates -/

/-- C9: when the byte stream is not well-formed XML (`ET.fromstring`
raises `ParseError`), each of the four parse functions propagates the
error to its caller unchanged — none of them wraps the `fromstring` call
in a `try`/`except` — and in particular none returns an empty or partial
result. -/
theorem malformed_input_propagates :
    ILCDXMLParser.parse_stocks (.error .parseError) = .error .parseError
    ∧ ILCDXMLParser.parse_datasets_search (.error .parseError) = .error .parseError
    ∧ ILCDXMLParser.parse_dataset (.error .parseError) = .error .parseError
    ∧ ILCDXMLParser.parse_flow_info (.error .parseError) = .error .parseError :=
  ⟨rfl, rfl, rfl, rfl⟩

/-! ## C7: namespace fallback precedence -/

theorem text_qualifyElem (u : String) (e : XElem) : (qualifyElem u e).text = e.text := by
  cases e; rfl

theorem toList_qualifyForest (u : String) :
    ∀ f : XForest, (qualifyForest u f).toList = f.toList.map (qualifyElem u)
  | .nil => rfl
  | .cons c rest => by simp [qualifyForest, XForest.toList, toList_qualifyForest u rest]

theorem children_qualifyElem (u : String) (e : XElem) :
    (qualifyElem u e).children = e.children.map (qualifyElem u) := by
  cases e with
  | mk t a s cs => simp [XElem.children, qualifyElem, toList_qualifyForest]

mutual
theorem descendants_qualifyElem (u : String) :
    ∀ e : XElem, (qualifyElem u e).descendants = e.descendants.map (qualifyElem u)
  | .mk t a s cs => by
      simp [qualifyElem, XElem.descendants, elems_qualifyForest u cs]
theorem elems_qualifyForest (u : String) :
    ∀ f : XForest, (qualifyForest u f).elems = f.elems.map (qualifyElem u)
  | .nil => rfl
  | .cons c rest => by
      simp [qualifyForest, XForest.elems, descendants_qualifyElem u c,
        elems_qualifyForest u rest]
end

theorem plainElem_parts {t : QName} {a : List (QName × String)} {s : Option String}
    {cs : XForest} (h : plainElem (.mk t a s cs) = true) :
    (∃ t0, t = .plain t0) ∧ plainForest cs = true := by
  unfold plainElem at h
  simp only [Bool.and_eq_true] at h
  refine ⟨?_, h.2⟩
  cases t with
  | plain t0 => exact ⟨t0, rfl⟩
  | qualified v nm => simp at h

theorem mem_toList_plain :
    ∀ (f : XForest), plainForest f = true → ∀ c ∈ f.toList, plainElem c = true
  | .nil, _, c, hc => absurd hc (by simp [XForest.toList])
  | .cons x rest, h, c, hc => by
      unfold plainForest at h
      simp only [Bool.and_eq_true] at h
      rcases List.mem_cons.mp (by simpa [XForest.toList] using hc) with rfl | hmem
      · exact h.1
      · exact mem_toList_plain rest h.2 c hmem

mutual
theorem plainElem_descendants :
    ∀ e : XElem, plainElem e = true → ∀ c ∈ e.descendants, plainElem c = true
  | .mk t a s cs, h, c, hc => by
      have hf : plainForest cs = true := (plainElem_parts h).2
      exact plainForest_elems cs hf c (by simpa [XElem.descendants] using hc)
theorem plainForest_elems :
    ∀ f : XForest, plainForest f = true → ∀ c ∈ f.elems, plainElem c = true
  | .nil, h, c, hc => absurd hc (by simp [XForest.elems])
  | .cons x rest, h, c, hc => by
      unfold plainForest at h
      simp only [Bool.and_eq_true] at h
      have hc' : c = x ∨ c ∈ x.descendants ++ rest.elems := by
        simpa [XForest.elems] using hc
      rcases hc' with rfl | hmem
      · exact h.1
      · rcases List.mem_append.mp hmem with hd | hr
        · exact plainElem_descendants x h.1 c hd
        · exact plainForest_elems rest h.2 c hr
end

theorem plainElem_children {e : XElem} (h : plainElem e = true) :
    ∀ c ∈ e.children, plainElem c = true := by
  cases e with
  | mk t a s cs =>
      intro c hc
      exact mem_toList_plain cs (plainElem_parts h).2 c (by simpa [XElem.children] using hc)

theorem matchesStep_pfx_qualify (u p s : String) {e : XElem} (he : plainElem e = true) :
    matchesStep (qualifyElem u e) ⟨.pfx p s, none⟩ [(p, u)] =
      matchesStep e ⟨.bare s, none⟩ [] := by
  cases e with
  | mk t a sx cs =>
      obtain ⟨⟨t0, rfl⟩, -⟩ := plainElem_parts he
      apply Bool.eq_iff_iff.mpr
      simp [matchesStep, resolveTag, qualifyElem, qualifyQName, XElem.tag, List.find?]

theorem matchesStep_pfx_plain_false (u' p s : String) {e : XElem}
    (he : plainElem e = true) :
    matchesStep e ⟨.pfx p s, none⟩ [(p, u')] = false := by
  cases e with
  | mk t a sx cs =>
      obtain ⟨⟨t0, rfl⟩, -⟩ := plainElem_parts he
      simp [matchesStep, resolveTag, XElem.tag, List.find?]

theorem matchesStep_pfx_other_false (u u' p s : String) (hne : u' ≠ u) {e : XElem}
    (he : plainElem e = true) :
    matchesStep (qualifyElem u e) ⟨.pfx p s, none⟩ [(p, u')] = false := by
  cases e with
  | mk t a sx cs =>
      obtain ⟨⟨t0, rfl⟩, -⟩ := plainElem_parts he
      simp [matchesStep, resolveTag, qualifyElem, qualifyQName, XElem.tag, List.find?, hne]

theorem matchesStep_bare_qualified_false (u s : String) {e : XElem}
    (he : plainElem e = true) :
    matchesStep (qualifyElem u e) ⟨.bare s, none⟩ [] = false := by
  cases e with
  | mk t a sx cs =>
      obtain ⟨⟨t0, rfl⟩, -⟩ := plainElem_parts he
      simp [matchesStep, resolveTag, qualifyElem, qualifyQName, XElem.tag, List.find?]

theorem findall_single_deep (e : XElem) (st : Step) (ns : NsMap) :
    e.findall ⟨true, [st]⟩ ns = e.descendants.filter (fun c => matchesStep c st ns) := by
  simp [XElem.findall, evalSteps]

theorem findall_single_child (e : XElem) (st : Step) (ns : NsMap) :
    e.findall ⟨false, [st]⟩ ns = e.children.filter (fun c => matchesStep c st ns) := by
  simp [XElem.findall, evalSteps]

theorem filter_map_qualify (u : String) (l : List XElem) (st st' : Step)
    (ns ns' : NsMap)
    (hmatch : ∀ e ∈ l, matchesStep (qualifyElem u e) st ns = matchesStep e st' ns') :
    (l.map (qualifyElem u)).filter (fun c => matchesStep c st ns) =
      (l.filter (fun c => matchesStep c st' ns')).map (qualifyElem u) := by
  rw [List.filter_map]
  congr 1
  exact List.filter_congr (fun e he => hmatch e he)

theorem stockElements_cons (root : XElem) (pr : String × String) (rest : NsMap) :
    ILCDXMLParser.stockElements root (pr :: rest) =
      root.descendants.filter
        (fun c => matchesStep c ⟨.pfx "ns" "dataStock", none⟩ (pr :: rest)) := by
  simp [ILCDXMLParser.stockElements, findall_single_deep]

theorem stockElements_nil (root : XElem) :
    ILCDXMLParser.stockElements root [] =
      root.descendants.filter (fun c => matchesStep c ⟨.bare "dataStock", none⟩ []) := by
  simp [ILCDXMLParser.stockElements, findall_single_deep]

theorem stockElements_qualify (root : XElem) (u : String)
    (hroot : plainElem root = true) :
    ILCDXMLParser.stockElements (qualifyElem u root) [("ns", u)] =
      (ILCDXMLParser.stockElements root []).map (qualifyElem u) := by
  rw [stockElements_cons, stockElements_nil, descendants_qualifyElem]
  exact filter_map_qualify u root.descendants _ _ _ _
    (fun e he => matchesStep_pfx_qualify u "ns" "dataStock"
      (plainElem_descendants root hroot e he))

theorem stockDict_qualify (u : String) (st : XElem) (hst : plainElem st = true) :
    ILCDXMLParser.stockDict (qualifyElem u st) [("ns", u)] =
      ILCDXMLParser.stockDict st [] := by
  have hfind : ∀ s : String,
      (qualifyElem u st).find ⟨false, [⟨.pfx "ns" s, none⟩]⟩ [("ns", u)] =
        (st.find ⟨false, [⟨.bare s, none⟩]⟩ []).map (qualifyElem u) := by
    intro s
    unfold XElem.find
    rw [findall_single_child, findall_single_child, children_qualifyElem]
    rw [filter_map_qualify u st.children _ _ _ _
      (fun e he => matchesStep_pfx_qualify u "ns" s (plainElem_children hst e he))]
    rw [List.head?_map]
  show ILCDXMLParser.stockDict (qualifyElem u st) (("ns", u) :: []) = _
  simp only [ILCDXMLParser.stockDict, List.isEmpty_cons, List.isEmpty_nil,
    Bool.false_eq_true, if_false, if_true]
  rw [hfind "uuid", hfind "shortName", hfind "description"]
  cases st.find ⟨false, [⟨.bare "uuid", none⟩]⟩ [] <;>
    cases st.find ⟨false, [⟨.bare "shortName", none⟩]⟩ [] <;>
    cases st.find ⟨false, [⟨.bare "description", none⟩]⟩ [] <;>
    simp [text_qualifyElem]

theorem try_parse_stocks_qualify (u : String) (root : XElem)
    (hroot : plainElem root = true) :
    ILCDXMLParser._try_parse_stocks (qualifyElem u root) [("ns", u)] =
      ILCDXMLParser._try_parse_stocks root [] := by
  unfold ILCDXMLParser._try_parse_stocks
  rw [stockElements_qualify root u hroot, List.map_map]
  have hmap : (ILCDXMLParser.stockElements root []).map
      ((fun st => ILCDXMLParser.stockDict st [("ns", u)]) ∘ qualifyElem u) =
      (ILCDXMLParser.stockElements root []).map
        (fun st => ILCDXMLParser.stockDict st []) := by
    apply List.map_congr_left
    intro st hst
    have hplain : plainElem st = true := by
      rw [stockElements_nil] at hst
      exact plainElem_descendants root hroot st (List.mem_of_mem_filter hst)
    exact stockDict_qualify u st hplain
  rw [hmap]

theorem try_parse_stocks_plain_empty (root : XElem) (u' : String)
    (hroot : plainElem root = true) :
    ILCDXMLParser._try_parse_stocks root [("ns", u')] = [] := by
  have helems : ILCDXMLParser.stockElements root [("ns", u')] = [] := by
    rw [stockElements_cons]
    apply List.filter_eq_nil_iff.mpr
    intro e he hm
    rw [matchesStep_pfx_plain_false u' "ns" "dataStock"
      (plainElem_descendants root hroot e he)] at hm
    exact Bool.noConfusion hm
  unfold ILCDXMLParser._try_parse_stocks
  rw [helems]
  rfl

theorem try_parse_stocks_other_empty (u u' : String) (hne : u' ≠ u) (root : XElem)
    (hroot : plainElem root = true) :
    ILCDXMLParser._try_parse_stocks (qualifyElem u root) [("ns", u')] = [] := by
  have helems : ILCDXMLParser.stockElements (qualifyElem u root) [("ns", u')] = [] := by
    rw [stockElements_cons, descendants_qualifyElem]
    apply List.filter_eq_nil_iff.mpr
    intro e he hm
    obtain ⟨e0, he0, rfl⟩ := List.mem_map.mp he
    rw [matchesStep_pfx_other_false u u' "ns" "dataStock" hne
      (plainElem_descendants root hroot e0 he0)] at hm
    exact Bool.noConfusion hm
  unfold ILCDXMLParser._try_parse_stocks
  rw [helems]
  rfl

theorem try_parse_stocks_bare_empty (u : String) (root : XElem)
    (hroot : plainElem root = true) :
    ILCDXMLParser._try_parse_stocks (qualifyElem u root) [] = [] := by
  have helems : ILCDXMLParser.stockElements (qualifyElem u root) [] = [] := by
    rw [stockElements_nil, descendants_qualifyElem]
    apply List.filter_eq_nil_iff.mpr
    intro e he hm
    obtain ⟨e0, he0, rfl⟩ := List.mem_map.mp he
    rw [matchesStep_bare_qualified_false u "dataStock"
      (plainElem_descendants root hroot e0 he0)] at hm
    exact Bool.noConfusion hm
  unfold ILCDXMLParser._try_parse_stocks
  rw [helems]
  rfl

theorem tryStockNamespaces_eq_firstNonempty (root : XElem) :
    ∀ nss : List NsMap,
      ILCDXMLParser.tryStockNamespaces root nss =
        firstNonempty (nss.map (ILCDXMLParser._try_parse_stocks root)) := by
  intro nss
  induction nss with
  | nil => rfl
  | cons ns rest ih =>
      cases hb : (ILCDXMLParser._try_parse_stocks root ns).isEmpty
      · simp [ILCDXMLParser.tryStockNamespaces, firstNonempty, List.find?, hb, ih]
      · simp [ILCDXMLParser.tryStockNamespaces, firstNonempty, List.find?, hb, ih]

/-- C7: a stocks document bound to the first-priority namespace parses to
the same records as the identical document with no namespace at all
(fallback tried top-down); the namespace bindings are tried in the fixed
priority order of `stock_namespaces` and the first binding yielding a
non-empty record list wins; when no binding yields records the result is
the empty list, not an error. -/
theorem namespace_fallback_equivalence :
    (∀ root : XElem, plainElem root = true →
       ILCDXMLParser.parse_stocks (.ok (qualifyElem sapiURI root)) =
         ILCDXMLParser.parse_stocks (.ok root))
    ∧ (∀ root : XElem,
       ILCDXMLParser.parse_stocks (.ok root) =
         .ok (firstNonempty (ILCDXMLParser.stock_namespaces.map
           (ILCDXMLParser._try_parse_stocks root)))) := by
  constructor
  · intro root hroot
    show Except.ok (ILCDXMLParser.tryStockNamespaces (qualifyElem sapiURI root)
        ILCDXMLParser.stock_namespaces) =
      Except.ok (ILCDXMLParser.tryStockNamespaces root ILCDXMLParser.stock_namespaces)
    have hslash : sapiSlashURI ≠ sapiURI := by decide
    have htail_q : ILCDXMLParser.tryStockNamespaces (qualifyElem sapiURI root)
        [[("ns", sapiSlashURI)], []] = [] := by
      unfold ILCDXMLParser.tryStockNamespaces
      rw [try_parse_stocks_other_empty sapiURI sapiSlashURI hslash root hroot]
      simp only [List.isEmpty_nil, if_true]
      unfold ILCDXMLParser.tryStockNamespaces
      rw [try_parse_stocks_bare_empty sapiURI root hroot]
      simp [ILCDXMLParser.tryStockNamespaces]
    have htail_p : ILCDXMLParser.tryStockNamespaces root [[("ns", sapiSlashURI)], []] =
        (if (ILCDXMLParser._try_parse_stocks root []).isEmpty then []
         else ILCDXMLParser._try_parse_stocks root []) := by
      unfold ILCDXMLParser.tryStockNamespaces
      rw [try_parse_stocks_plain_empty root sapiSlashURI hroot]
      simp only [List.isEmpty_nil, if_true]
      unfold ILCDXMLParser.tryStockNamespaces
      by_cases hL : (ILCDXMLParser._try_parse_stocks root []).isEmpty
      · simp [hL, ILCDXMLParser.tryStockNamespaces]
      · simp [hL]
    have hq : ILCDXMLParser.tryStockNamespaces (qualifyElem sapiURI root)
        ILCDXMLParser.stock_namespaces =
        (if (ILCDXMLParser._try_parse_stocks root []).isEmpty then []
         else ILCDXMLParser._try_parse_stocks root []) := by
      show ILCDXMLParser.tryStockNamespaces (qualifyElem sapiURI root)
        ([("ns", sapiURI)] :: [[("ns", sapiSlashURI)], []]) = _
      unfold ILCDXMLParser.tryStockNamespaces
      rw [try_parse_stocks_qualify sapiURI root hroot, htail_q]
    have hp : ILCDXMLParser.tryStockNamespaces root ILCDXMLParser.stock_namespaces =
        (if (ILCDXMLParser._try_parse_stocks root []).isEmpty then []
         else ILCDXMLParser._try_parse_stocks root []) := by
      show ILCDXMLParser.tryStockNamespaces root
        ([("ns", sapiURI)] :: [[("ns", sapiSlashURI)], []]) = _
      unfold ILCDXMLParser.tryStockNamespaces
      rw [try_parse_stocks_plain_empty root sapiURI hroot]
      simp only [List.isEmpty_nil, if_true]
      exact htail_p
    rw [hq, hp]
  · intro root
    show Except.ok (ILCDXMLParser.tryStockNamespaces root ILCDXMLParser.stock_namespaces) = _
    rw [tryStockNamespaces_eq_firstNonempty]

/-- Witness for C7 at the concrete minimal stocks document with no
namespace and its first-priority-namespace qualification. -/
theorem namespace_fallback_equivalence_witness :
    plainElem stocksDocPlain = true
    ∧ ILCDXMLParser.parse_stocks (.ok (qualifyElem sapiURI stocksDocPlain)) =
        ILCDXMLParser.parse_stocks (.ok stocksDocPlain) :=
  ⟨by decide, namespace_fallback_equivalence.1 stocksDocPlain (by decide)⟩

/-! ## C8: the presence invariant -/

theorem mem_try_parse_stocks (root : XElem) (ns : NsMap) (s : StockData)
    (h : s ∈ ILCDXMLParser._try_parse_stocks root ns) :
    dictTruthy s.uuid = true ∧ dictTruthy s.name = true := by
  unfold ILCDXMLParser._try_parse_stocks at h
  have hf := (List.mem_filter.mp h).2
  simp only [Bool.and_eq_true] at hf
  exact hf

theorem mem_tryStockNamespaces (root : XElem) (s : StockData) :
    ∀ nss : List NsMap, s ∈ ILCDXMLParser.tryStockNamespaces root nss →
      ∃ ns ∈ nss, s ∈ ILCDXMLParser._try_parse_stocks root ns := by
  intro nss
  induction nss with
  | nil =>
      intro h
      simp [ILCDXMLParser.tryStockNamespaces] at h
  | cons ns rest ih =>
      intro h
      unfold ILCDXMLParser.tryStockNamespaces at h
      by_cases he : (ILCDXMLParser._try_parse_stocks root ns).isEmpty
      · simp only [he, if_true] at h
        obtain ⟨ns', hns', hs'⟩ := ih h
        exact ⟨ns', List.mem_cons_of_mem ns hns', hs'⟩
      · simp only [he, if_false] at h
        exact ⟨ns, List.mem_cons_self ns rest, h⟩

theorem mem_searchLoop (root : XElem) (d : DatasetData) :
    ∀ paths : List XPath, d ∈ ILCDXMLParser.searchLoop root paths →
      truthyStr d.uuid = true ∧ truthyStr d.name = true := by
  intro paths
  induction paths with
  | nil =>
      intro h
      simp [ILCDXMLParser.searchLoop] at h
  | cons p rest ih =>
      intro h
      unfold ILCDXMLParser.searchLoop at h
      rcases List.mem_append.mp h with h1 | h2
      · by_cases hp : (root.findall p []).isEmpty
        · simp [hp] at h1
        · simp only [hp, if_false] at h1
          unfold ILCDXMLParser.acceptedDatasets at h1
          have hf := (List.mem_filter.mp h1).2
          simp only [Bool.and_eq_true] at hf
          exact hf
      · exact ih h2

/-- C8: a stock record missing its identifier or its name (absent key or
falsy value) never appears in the output of `_try_parse_stocks` or
`parse_stocks`, and a dataset record missing identifier or name never
appears in the output of `parse_datasets_search`: every emitted record
has truthy identifier and name entries. -/
theorem presence_invariant :
    (∀ (root : XElem) (ns : NsMap), ∀ s ∈ ILCDXMLParser._try_parse_stocks root ns,
       dictTruthy s.uuid = true ∧ dictTruthy s.name = true)
    ∧ (∀ (input : Except PyErr XElem) (l : List StockData),
         ILCDXMLParser.parse_stocks input = .ok l →
         ∀ s ∈ l, dictTruthy s.uuid = true ∧ dictTruthy s.name = true)
    ∧ (∀ (input : Except PyErr XElem) (l : List DatasetData),
         ILCDXMLParser.parse_datasets_search input = .ok l →
         ∀ d ∈ l, truthyStr d.uuid = true ∧ truthyStr d.name = true) := by
  refine ⟨fun root ns s h => mem_try_parse_stocks root ns s h, ?_, ?_⟩
  · intro input l h s hs
    cases input with
    | error e =>
        rw [show ILCDXMLParser.parse_stocks (.error e) = .error e from rfl] at h
        exact Except.noConfusion h
    | ok root =>
        have h' : ILCDXMLParser.tryStockNamespaces root ILCDXMLParser.stock_namespaces = l :=
          Except.ok.inj h
        rw [← h'] at hs
        obtain ⟨ns, _, hmem⟩ := mem_tryStockNamespaces root s _ hs
        exact mem_try_parse_stocks root ns s hmem
  · intro input l h d hd
    cases input with
    | error e =>
        rw [show ILCDXMLParser.parse_datasets_search (.error e) = .error e from rfl] at h
        exact Except.noConfusion h
    | ok root =>
        have h' : ILCDXMLParser.searchLoop root ILCDXMLParser.search_paths = l :=
          Except.ok.inj h
        rw [← h'] at hd
        exact mem_searchLoop root d _ hd

/-- Witness for C8 at the concrete stock and search documents. -/
theorem presence_invariant_witness :
    (dictTruthy stockRec.uuid = true ∧ dictTruthy stockRec.name = true)
    ∧ (truthyStr datasetOne.uuid = true ∧ truthyStr datasetOne.name = true) :=
  ⟨presence_invariant.2.1 (.ok stocksDoc) [stockRec] (by decide) stockRec (by decide),
   presence_invariant.2.2 (.ok searchDocTwoPaths) [datasetOne, datasetTwo] (by decide)
     datasetOne (by decide)⟩

/-! ## C10: the category of a flow with no level-2 category -/

theorem parseOneFlow_category (x : XElem) (ex : Exchange)
    (h : ILCDXMLParser.parseOneFlow x = .ok ex) :
    ex.category =
      match (x.findall ILCDXMLParser.path_categories ILCDXMLParser.flow_ns).find?
          (fun c => c.get (.plain "level") == some "2") with
      | some c => c.text
      | none => none := by
  unfold ILCDXMLParser.parseOneFlow at h
  cases hu : ILCDXMLParser.textOfFound (x.find ILCDXMLParser.path_flow_uuid ILCDXMLParser.flow_ns) with
  | error e => rw [hu] at h; simp [Bind.bind, Except.bind] at h
  | ok uuid =>
  rw [hu] at h
  simp only [Bind.bind, Except.bind] at h
  cases hn : ILCDXMLParser.textOfFound (x.find ILCDXMLParser.path_flow_name ILCDXMLParser.flow_ns) with
  | error e => rw [hn] at h; simp at h
  | ok nm =>
  rw [hn] at h
  dsimp only at h
  cases htp : ILCDXMLParser.textOfFound (x.find ILCDXMLParser.path_flow_type ILCDXMLParser.flow_ns) with
  | error e => rw [htp] at h; simp at h
  | ok ty =>
  rw [htp] at h
  dsimp only at h
  cases hun : ILCDXMLParser.textOfFound (x.find ILCDXMLParser.path_defaultUnit ILCDXMLParser.flow_ns) with
  | error e => rw [hun] at h; simp at h
  | ok un =>
  rw [hun] at h
  dsimp only at h
  simp only [Except.ok.injEq] at h
  subst h
  rfl

theorem flowList_mem :
    ∀ (xs : List XElem) (out : List Exchange),
      ILCDXMLParser.flowList xs = .ok out →
      ∀ ex ∈ out, ∃ x ∈ xs, ILCDXMLParser.parseOneFlow x = .ok ex := by
  intro xs
  induction xs with
  | nil =>
      intro out h ex hex
      unfold ILCDXMLParser.flowList at h
      simp only [Except.ok.injEq] at h
      subst h
      exact absurd hex (List.not_mem_nil ex)
  | cons x rest ih =>
      intro out h ex hex
      unfold ILCDXMLParser.flowList at h
      cases hx : ILCDXMLParser.parseOneFlow x with
      | error e => rw [hx] at h; simp [Bind.bind, Except.bind] at h
      | ok e0 =>
          rw [hx] at h
          simp only [Bind.bind, Except.bind] at h
          cases ht : ILCDXMLParser.flowList rest with
          | error e => rw [ht] at h; simp at h
          | ok tail =>
              rw [ht] at h
              dsimp only at h
              simp only [Except.ok.injEq] at h
              subst h
              rcases List.mem_cons.mp hex with rfl | hmem
              · exact ⟨x, List.mem_cons_self x rest, hx⟩
              · obtain ⟨x', hx', hpx'⟩ := ih tail ht ex hmem
                exact ⟨x', List.mem_cons_of_mem x hx', hpx'⟩

/-- C10: every exchange emitted by `parse_flow_info` comes from a flow
element, and a flow element with no category child whose `level`
attribute equals `"2"` produces an exchange whose `category` is the
Python `None` value — not the `Exchange` dataclass's `""` default — so
`category` in `parse_flow_info` output is not always a string. -/
theorem flow_category_level2_none :
    (∀ (root : XElem) (exs : List Exchange),
       ILCDXMLParser.parse_flow_info (.ok root) = .ok exs →
       ∀ ex ∈ exs, ∃ x ∈ root.findall ILCDXMLParser.path_flow ILCDXMLParser.flow_ns,
         ILCDXMLParser.parseOneFlow x = .ok ex)
    ∧ (∀ (x : XElem) (ex : Exchange),
         ILCDXMLParser.parseOneFlow x = .ok ex →
         (∀ c ∈ x.findall ILCDXMLParser.path_categories ILCDXMLParser.flow_ns,
            c.get (.plain "level") ≠ some "2") →
         ex.category = none ∧ ex.category ≠ some "") := by
  constructor
  · intro root exs h ex hex
    have h' : ILCDXMLParser.flowList
        (root.findall ILCDXMLParser.path_flow ILCDXMLParser.flow_ns) = .ok exs := h
    exact flowList_mem _ exs h' ex hex
  · intro x ex h hnone
    have hc := parseOneFlow_category x ex h
    have hfind : (x.findall ILCDXMLParser.path_categories ILCDXMLParser.flow_ns).find?
        (fun c => c.get (.plain "level") == some "2") = none := by
      apply List.find?_eq_none.mpr
      intro c hcmem
      simpa using hnone c hcmem
    rw [hfind] at hc
    exact ⟨hc, by rw [hc]; simp⟩

/-- Witness for C10 at the flow whose only category has level `"1"`. -/
theorem flow_category_level2_none_witness :
    flowRecNoCat2.category = none ∧ flowRecNoCat2.category ≠ some "" :=
  flow_category_level2_none.2 flowElemNoCat2 flowRecNoCat2 (by decide) (by decide)

end Bwilcd
